import Mathlib

/-!
Verification of the ryaml compatibility layer: input normalization
(`_read_file`, `load`, `load_all`), the error taxonomy (`error.py`),
the pyyaml bridge loader (`compat/__init__.py`, `compat/pyyaml.py`),
and a spec-level model of the opaque parsing engine (`loads`,
`loads_all`, `dumps`), over which the round-trip and document-count
properties are proved.
-/

namespace Ryaml

/-! ## Character helpers -/

def isWsChar (c : Char) : Bool :=
  c = ' ' || c = '\n' || c = '\t' || c = '\r'

def digitChar (d : Nat) : Char :=
  match d with
  | 0 => '0' | 1 => '1' | 2 => '2' | 3 => '3' | 4 => '4'
  | 5 => '5' | 6 => '6' | 7 => '7' | 8 => '8' | _ => '9'

def digitVal (c : Char) : Nat := c.toNat - 48

theorem digitVal_digitChar (d : Nat) (h : d < 10) : digitVal (digitChar d) = d := by
  interval_cases d <;> rfl

theorem isDigit_digitChar (d : Nat) : (digitChar d).isDigit = true := by
  unfold digitChar
  split <;> rfl

theorem digitChar_lt (d : Nat) (h : d < 10) : (digitChar d).toNat = 48 + d := by
  interval_cases d <;> rfl

/-! ## Decimal digit strings -/

def natToRevDigitsAux : Nat → Nat → List Char
  | 0, _ => []
  | f + 1, n => if n = 0 then [] else digitChar (n % 10) :: natToRevDigitsAux f (n / 10)

/-- Most-significant-digit-first decimal rendering of a natural number. -/
def natToDigits (n : Nat) : List Char :=
  if n = 0 then ['0'] else (natToRevDigitsAux (n + 1) n).reverse

/-- Value of a least-significant-digit-first digit list. -/
def revDigitsVal : List Char → Nat
  | [] => 0
  | c :: cs => digitVal c + 10 * revDigitsVal cs

/-- Value of a most-significant-digit-first digit list. -/
def digitsToNat (ds : List Char) : Nat :=
  ds.foldl (fun a c => a * 10 + digitVal c) 0

theorem revDigitsVal_aux (f : Nat) : ∀ n, n < f → revDigitsVal (natToRevDigitsAux f n) = n := by
  induction f with
  | zero => intro n h; omega
  | succ f ih =>
    intro n h
    by_cases h0 : n = 0
    · subst h0; simp [natToRevDigitsAux, revDigitsVal]
    · have hd : n / 10 < f := by omega
      simp only [natToRevDigitsAux, if_neg h0, revDigitsVal, ih _ hd]
      rw [digitVal_digitChar _ (by omega)]
      omega

theorem digitsToNat_append_one (xs : List Char) (c : Char) :
    digitsToNat (xs ++ [c]) = 10 * digitsToNat xs + digitVal c := by
  simp [digitsToNat, List.foldl_append]
  omega

theorem digitsToNat_reverse (l : List Char) : digitsToNat l.reverse = revDigitsVal l := by
  induction l with
  | nil => rfl
  | cons c cs ih =>
    simp only [List.reverse_cons, digitsToNat_append_one, ih, revDigitsVal]
    omega

theorem digitsToNat_natToDigits (n : Nat) : digitsToNat (natToDigits n) = n := by
  by_cases h0 : n = 0
  · subst h0; rfl
  · simp only [natToDigits, if_neg h0, digitsToNat_reverse]
    exact revDigitsVal_aux (n + 1) n (by omega)

theorem natToRevDigitsAux_digits (f : Nat) :
    ∀ n c, c ∈ natToRevDigitsAux f n → c.isDigit = true := by
  induction f with
  | zero => intro n c h; simp [natToRevDigitsAux] at h
  | succ f ih =>
    intro n c h
    by_cases h0 : n = 0
    · subst h0; simp [natToRevDigitsAux] at h
    · simp only [natToRevDigitsAux, if_neg h0, List.mem_cons] at h
      rcases h with h | h
      · subst h; exact isDigit_digitChar _
      · exact ih _ _ h

theorem natToDigits_digits (n : Nat) : ∀ c ∈ natToDigits n, c.isDigit = true := by
  intro c h
  by_cases h0 : n = 0
  · subst h0; simp [natToDigits] at h; subst h; rfl
  · simp only [natToDigits, if_neg h0, List.mem_reverse] at h
    exact natToRevDigitsAux_digits _ _ _ h

theorem natToDigits_ne_nil (n : Nat) : natToDigits n ≠ [] := by
  by_cases h0 : n = 0
  · subst h0; simp [natToDigits]
  · simp only [natToDigits, if_neg h0, ne_eq, List.reverse_eq_nil_iff]
    cases f : natToRevDigitsAux (n + 1) n with
    | nil =>
      exfalso
      have := revDigitsVal_aux (n + 1) n (by omega)
      rw [f] at this
      simp [revDigitsVal] at this
      omega
    | cons c cs => simp

/-! ## The value model

Python objects produced by the engine: `none` models Python `None`
(YAML null), sequences are Python lists, mappings are Python dicts in
insertion order with string keys. -/

inductive Value where
  | null
  | bool (b : Bool)
  | int (n : Int)
  | str (s : String)
  | seq (xs : List Value)
  | map (kvs : List (String × Value))

mutual

def beqValue : Value → Value → Bool
  | .null, .null => true
  | .bool a, .bool b => a == b
  | .int a, .int b => a == b
  | .str a, .str b => a == b
  | .seq a, .seq b => beqValueList a b
  | .map a, .map b => beqValuePairs a b
  | _, _ => false

def beqValueList : List Value → List Value → Bool
  | [], [] => true
  | a :: as, b :: bs => beqValue a b && beqValueList as bs
  | _, _ => false

def beqValuePairs : List (String × Value) → List (String × Value) → Bool
  | [], [] => true
  | (k, v) :: as, (l, w) :: bs => k == l && beqValue v w && beqValuePairs as bs
  | _, _ => false

end

mutual

theorem beqValue_iff : ∀ a b : Value, beqValue a b = true ↔ a = b
  | .null, b => by cases b <;> simp [beqValue]
  | .bool x, b => by cases b <;> simp [beqValue]
  | .int x, b => by cases b <;> simp [beqValue]
  | .str x, b => by cases b <;> simp [beqValue]
  | .seq xs, b => by
    cases b <;> simp [beqValue]
    exact beqValueList_iff xs _
  | .map ps, b => by
    cases b <;> simp [beqValue]
    exact beqValuePairs_iff ps _

theorem beqValueList_iff : ∀ a b : List Value, beqValueList a b = true ↔ a = b
  | [], b => by cases b <;> simp [beqValueList]
  | x :: xs, b => by
    cases b with
    | nil => simp [beqValueList]
    | cons y ys =>
      simp [beqValueList, beqValue_iff x y, beqValueList_iff xs ys]

theorem beqValuePairs_iff : ∀ a b : List (String × Value), beqValuePairs a b = true ↔ a = b
  | [], b => by cases b <;> simp [beqValuePairs]
  | (k, v) :: xs, b => by
    cases b with
    | nil => simp [beqValuePairs]
    | cons y ys =>
      obtain ⟨l, w⟩ := y
      simp [beqValuePairs, beqValue_iff v w, beqValuePairs_iff xs ys, and_assoc]

end

instance : DecidableEq Value := fun a b => decidable_of_iff _ (beqValue_iff a b)

/-! ## Emitter (spec-level model of the engine's `emit`) -/

def escapeChars : List Char → List Char
  | [] => []
  | c :: cs => if c = '"' ∨ c = '\\' then '\\' :: c :: escapeChars cs else c :: escapeChars cs

def emitInt (i : Int) : List Char :=
  if i < 0 then '-' :: natToDigits i.natAbs else natToDigits i.natAbs

def nullChars : List Char := ['n', 'u', 'l', 'l']

def trueChars : List Char := ['t', 'r', 'u', 'e']

def falseChars : List Char := ['f', 'a', 'l', 's', 'e']

mutual

/-- Modelled from the spec: the opaque engine's `emit(Value) -> text` (§1, §4.3);
the concrete rendering is flow style (a YAML-compatible JSON-like syntax), fixed
here only so that the loader/dumper round trip (§8) is a provable statement. -/
def emitValue : Value → List Char
  | .null => nullChars
  | .bool true => trueChars
  | .bool false => falseChars
  | .int i => emitInt i
  | .str s => '"' :: (escapeChars s.data ++ ['"'])
  | .seq xs => '[' :: (emitSeq xs ++ [']'])
  | .map kvs => '{' :: (emitMap kvs ++ ['}'])

def emitSeq : List Value → List Char
  | [] => []
  | [v] => emitValue v
  | v :: vs => emitValue v ++ ',' :: emitSeq vs

def emitMap : List (String × Value) → List Char
  | [] => []
  | [(k, v)] => '"' :: (escapeChars k.data ++ '"' :: ':' :: emitValue v)
  | (k, v) :: ps => ('"' :: (escapeChars k.data ++ '"' :: ':' :: emitValue v)) ++ ',' :: emitMap ps

end

/-! ## Parser (spec-level model of the engine's `parse_all`) -/

def skipWs : List Char → List Char
  | [] => []
  | c :: cs => if isWsChar c then skipWs cs else c :: cs

def parseStrBody : List Char → Option (List Char × List Char)
  | [] => none
  | c :: cs =>
    if c = '\\' then
      match cs with
      | [] => none
      | d :: cs2 =>
        match parseStrBody cs2 with
        | some (s, r) => some (d :: s, r)
        | none => none
    else if c = '"' then some ([], cs)
    else
      match parseStrBody cs with
      | some (s, r) => some (c :: s, r)
      | none => none

def takeDigits : List Char → List Char × List Char
  | [] => ([], [])
  | c :: cs =>
    if c.isDigit then
      let p := takeDigits cs
      (c :: p.1, p.2)
    else ([], c :: cs)

def parseNum (c : Char) (rest : List Char) : Option (Value × List Char) :=
  if c = '-' then
    let p := takeDigits rest
    if p.1 = [] then none else some (.int (-(digitsToNat p.1 : Int)), p.2)
  else
    let p := takeDigits (c :: rest)
    if p.1 = [] then none else some (.int ((digitsToNat p.1 : Int)), p.2)

mutual

def parseValue : Nat → List Char → Option (Value × List Char)
  | 0, _ => none
  | f + 1, cs =>
    match skipWs cs with
    | [] => none
    | c :: rest =>
      if c = '"' then
        match parseStrBody rest with
        | some (s, r) => some (.str ⟨s⟩, r)
        | none => none
      else if c = '[' then
        match parseEls f rest with
        | some (vs, r) => some (.seq vs, r)
        | none => none
      else if c = '{' then
        match parsePrs f rest with
        | some (ps, r) => some (.map ps, r)
        | none => none
      else if c = 'n' then
        match rest with
        | 'u' :: 'l' :: 'l' :: r => some (.null, r)
        | _ => none
      else if c = 't' then
        match rest with
        | 'r' :: 'u' :: 'e' :: r => some (.bool true, r)
        | _ => none
      else if c = 'f' then
        match rest with
        | 'a' :: 'l' :: 's' :: 'e' :: r => some (.bool false, r)
        | _ => none
      else parseNum c rest

def parseEls : Nat → List Char → Option (List Value × List Char)
  | 0, _ => none
  | f + 1, cs =>
    match skipWs cs with
    | [] => none
    | c :: rest =>
      if c = ']' then some ([], rest)
      else
        match parseValue f (c :: rest) with
        | some (v, r) =>
          match skipWs r with
          | [] => none
          | d :: r2 =>
            if d = ',' then
              match parseEls f r2 with
              | some (vs, r3) => some (v :: vs, r3)
              | none => none
            else if d = ']' then some ([v], r2)
            else none
        | none => none

def parsePrs : Nat → List Char → Option (List (String × Value) × List Char)
  | 0, _ => none
  | f + 1, cs =>
    match skipWs cs with
    | [] => none
    | c :: rest =>
      if c = '}' then some ([], rest)
      else if c = '"' then
        match parseStrBody rest with
        | some (k, r) =>
          match skipWs r with
          | [] => none
          | d :: r2 =>
            if d = ':' then
              match parseValue f r2 with
              | some (v, r3) =>
                match skipWs r3 with
                | [] => none
                | e :: r4 =>
                  if e = ',' then
                    match parsePrs f r4 with
                    | some (ps, r5) => some ((⟨k⟩, v) :: ps, r5)
                    | none => none
                  else if e = '}' then some ([(⟨k⟩, v)], r4)
                  else none
              | none => none
            else none
        | none => none
      else none

end

def isDocStart (cs : List Char) : Bool :=
  decide (cs.take 3 = ['-', '-', '-']) &&
    (match cs.drop 3 with
     | [] => true
     | d :: _ => isWsChar d)

def isDocEnd (cs : List Char) : Bool :=
  decide (cs.take 3 = ['.', '.', '.']) &&
    (match cs.drop 3 with
     | [] => true
     | d :: _ => isWsChar d)

def parseDocs : Nat → List Char → Option (List Value)
  | 0, _ => none
  | f + 1, cs =>
    match skipWs cs with
    | [] => some []
    | c :: rest =>
      let cs1 := if isDocStart (c :: rest) then skipWs (rest.drop 2) else c :: rest
      match parseValue (cs1.length + 1) cs1 with
      | none => none
      | some (v, r) =>
        match skipWs r with
        | [] => some [v]
        | d :: r1 =>
          if isDocStart (d :: r1) then
            match parseDocs f (d :: r1) with
            | some vs => some (v :: vs)
            | none => none
          else if isDocEnd (d :: r1) then
            match parseDocs f (skipWs (r1.drop 2)) with
            | some vs => some (v :: vs)
            | none => none
          else none

/-- Modelled from the spec: the opaque engine's `parse_all(text) -> [Value]`
(§1, §4.2); absent from src/ (it lives in the native `_ryaml` extension), it
is modelled as a concrete parser of the flow-style syntax that `emitValue`
produces, plus `---`/`...` document markers and surrounding whitespace. -/
def parse_all (t : String) : Option (List Value) :=
  parseDocs (t.data.length + 1) t.data

/-! ## Round-trip lemmas -/

def headNotDigit : List Char → Bool
  | [] => true
  | c :: _ => !c.isDigit

theorem headNotDigit_cons (c : Char) (t : List Char) :
    headNotDigit (c :: t) = !c.isDigit := rfl

theorem skipWs_cons (c : Char) (t : List Char) (h : isWsChar c = false) :
    skipWs (c :: t) = c :: t := by
  simp [skipWs, h]

theorem parseStrBody_escape (s : List Char) :
    ∀ rest, parseStrBody (escapeChars s ++ '"' :: rest) = some (s, rest) := by
  induction s with
  | nil =>
    intro rest
    simp only [escapeChars, List.nil_append]
    unfold parseStrBody
    simp +decide
  | cons c cs ih =>
    intro rest
    by_cases h : c = '"' ∨ c = '\\'
    · simp only [escapeChars, if_pos h, List.cons_append]
      unfold parseStrBody
      simp +decide [ih]
    · simp only [escapeChars, if_neg h, List.cons_append]
      push_neg at h
      unfold parseStrBody
      simp [h.1, h.2, ih]

theorem takeDigits_spec :
    ∀ ds rest, (∀ c ∈ ds, c.isDigit = true) → headNotDigit rest = true →
      takeDigits (ds ++ rest) = (ds, rest) := by
  intro ds
  induction ds with
  | nil =>
    intro rest _ hr
    cases rest with
    | nil => rfl
    | cons c t =>
      simp [headNotDigit] at hr
      simp [takeDigits, hr]
  | cons c cs ih =>
    intro rest h hr
    have hc : c.isDigit = true := h c (by simp)
    simp [takeDigits, hc, ih rest (fun d hd => h d (by simp [hd])) hr]

theorem natToRevDigitsAux_mem (f : Nat) :
    ∀ n c, c ∈ natToRevDigitsAux f n → ∃ d, d < 10 ∧ c = digitChar d := by
  induction f with
  | zero => intro n c h; simp [natToRevDigitsAux] at h
  | succ f ih =>
    intro n c h
    by_cases h0 : n = 0
    · subst h0; simp [natToRevDigitsAux] at h
    · simp only [natToRevDigitsAux, if_neg h0, List.mem_cons] at h
      rcases h with h | h
      · exact ⟨n % 10, by omega, h⟩
      · exact ih _ _ h

theorem natToDigits_mem (n : Nat) :
    ∀ c ∈ natToDigits n, ∃ d, d < 10 ∧ c = digitChar d := by
  intro c h
  by_cases h0 : n = 0
  · subst h0; simp [natToDigits] at h; exact ⟨0, by omega, h⟩
  · simp only [natToDigits, if_neg h0, List.mem_reverse] at h
    exact natToRevDigitsAux_mem _ _ _ h

theorem digitChar_head_ok (d : Nat) (h : d < 10) :
    isWsChar (digitChar d) = false ∧ digitChar d ≠ ']' := by
  interval_cases d <;> decide

theorem digitChar_ne (d : Nat) (h : d < 10) :
    digitChar d ≠ '"' ∧ digitChar d ≠ '[' ∧ digitChar d ≠ '{' ∧ digitChar d ≠ 'n' ∧
      digitChar d ≠ 't' ∧ digitChar d ≠ 'f' ∧ digitChar d ≠ '-' := by
  interval_cases d <;> decide

theorem emit_cons (v : Value) :
    ∃ c t, emitValue v = c :: t ∧ isWsChar c = false ∧ c ≠ ']' := by
  cases v with
  | null => exact ⟨'n', _, rfl, by decide, by decide⟩
  | bool b =>
    cases b with
    | false => exact ⟨'f', _, rfl, by decide, by decide⟩
    | true => exact ⟨'t', _, rfl, by decide, by decide⟩
  | int i =>
    show ∃ c t, emitInt i = c :: t ∧ _
    unfold emitInt
    by_cases h : i < 0
    · rw [if_pos h]; exact ⟨'-', _, rfl, by decide, by decide⟩
    · rw [if_neg h]
      cases hd : natToDigits i.natAbs with
      | nil => exact absurd hd (natToDigits_ne_nil _)
      | cons c t =>
        obtain ⟨d, hd10, hc⟩ := natToDigits_mem _ c (by rw [hd]; simp)
        subst hc
        obtain ⟨h1, h2⟩ := digitChar_head_ok d hd10
        exact ⟨_, t, rfl, h1, h2⟩
  | str s => exact ⟨'"', _, rfl, by decide, by decide⟩
  | seq xs => exact ⟨'[', _, rfl, by decide, by decide⟩
  | map kvs => exact ⟨'{', _, rfl, by decide, by decide⟩

theorem emitValue_length_pos (v : Value) : 1 ≤ (emitValue v).length := by
  obtain ⟨c, t, hv, _, _⟩ := emit_cons v
  rw [hv]
  simp

/-- The parser recovers exactly what the emitter produced, leaving the
trailing input untouched (provided the trailing input does not start with
a digit, which would extend an emitted integer). -/
theorem parse_emit (f : Nat) :
    (∀ v rest, (emitValue v).length < f → headNotDigit rest = true →
      parseValue f (emitValue v ++ rest) = some (v, rest)) ∧
    (∀ xs rest, (emitSeq xs).length + 1 < f →
      parseEls f (emitSeq xs ++ ']' :: rest) = some (xs, rest)) ∧
    (∀ ps rest, (emitMap ps).length + 1 < f →
      parsePrs f (emitMap ps ++ '}' :: rest) = some (ps, rest)) := by
  induction f with
  | zero =>
    exact ⟨fun v rest h _ => absurd h (by omega),
      fun xs rest h => absurd h (by omega),
      fun ps rest h => absurd h (by omega)⟩
  | succ f ih =>
    refine ⟨?_, ?_, ?_⟩
    · intro v rest hlen hrest
      cases v with
      | null =>
        simp only [emitValue, nullChars, List.cons_append, List.nil_append]
        unfold parseValue
        simp +decide [skipWs]
      | bool b =>
        cases b with
        | true =>
          simp only [emitValue, trueChars, List.cons_append, List.nil_append]
          unfold parseValue
          simp +decide [skipWs]
        | false =>
          simp only [emitValue, falseChars, List.cons_append, List.nil_append]
          unfold parseValue
          simp +decide [skipWs]
      | int i =>
        by_cases h : i < 0
        · have he : emitValue (.int i) = '-' :: natToDigits i.natAbs := by
            simp only [emitValue, emitInt, if_pos h]
          rw [he]
          unfold parseValue
          rw [List.cons_append, skipWs_cons _ _ (by decide)]
          dsimp only
          rw [if_neg (by decide), if_neg (by decide), if_neg (by decide),
            if_neg (by decide), if_neg (by decide), if_neg (by decide)]
          unfold parseNum
          rw [if_pos rfl, takeDigits_spec _ _ (natToDigits_digits _) hrest]
          rw [if_neg (natToDigits_ne_nil _), digitsToNat_natToDigits]
          have hi : -((i.natAbs : Nat) : Int) = i := by omega
          rw [hi]
        · have he : emitValue (.int i) = natToDigits i.natAbs := by
            simp only [emitValue, emitInt, if_neg h]
          cases hd : natToDigits i.natAbs with
          | nil => exact absurd hd (natToDigits_ne_nil _)
          | cons c t =>
            obtain ⟨d, hd10, hc⟩ := natToDigits_mem _ c (by rw [hd]; simp)
            subst hc
            obtain ⟨hne1, hne2, hne3, hne4, hne5, hne6, hne7⟩ := digitChar_ne d hd10
            rw [he, hd]
            unfold parseValue
            rw [List.cons_append, skipWs_cons _ _ (digitChar_head_ok d hd10).1]
            dsimp only
            rw [if_neg hne1, if_neg hne2, if_neg hne3, if_neg hne4, if_neg hne5,
              if_neg hne6]
            unfold parseNum
            rw [if_neg hne7, ← List.cons_append, ← hd,
              takeDigits_spec _ _ (natToDigits_digits _) hrest]
            rw [if_neg (natToDigits_ne_nil _), digitsToNat_natToDigits]
            have hi : ((i.natAbs : Nat) : Int) = i := by omega
            rw [hi]
      | str s =>
        simp only [emitValue, List.cons_append, List.append_assoc,
          List.singleton_append]
        unfold parseValue
        rw [skipWs_cons _ _ (by decide)]
        simp +decide [parseStrBody_escape]
      | seq xs =>
        have hlen2 : (emitSeq xs).length + 1 < f := by
          simp only [emitValue, List.length_cons, List.length_append,
            List.length_nil] at hlen
          omega
        simp only [emitValue, List.cons_append, List.append_assoc,
          List.singleton_append, List.nil_append]
        unfold parseValue
        rw [skipWs_cons _ _ (by decide)]
        dsimp only
        rw [if_neg (by decide), if_pos rfl, ih.2.1 xs rest hlen2]
      | map ps =>
        have hlen2 : (emitMap ps).length + 1 < f := by
          simp only [emitValue, List.length_cons, List.length_append,
            List.length_nil] at hlen
          omega
        simp only [emitValue, List.cons_append, List.append_assoc,
          List.singleton_append, List.nil_append]
        unfold parseValue
        rw [skipWs_cons _ _ (by decide)]
        dsimp only
        rw [if_neg (by decide), if_neg (by decide), if_pos rfl,
          ih.2.2 ps rest hlen2]
    · intro xs rest hlen
      cases xs with
      | nil =>
        simp only [emitSeq, List.nil_append]
        unfold parseEls
        rw [skipWs_cons _ _ (by decide)]
        dsimp only
        rw [if_pos rfl]
      | cons v vs =>
        obtain ⟨c, t, hv, hws, hbr⟩ := emit_cons v
        have hlenv : (emitValue v).length = t.length + 1 := by rw [hv]; simp
        cases vs with
        | nil =>
          have h1 : (emitValue v).length < f := by
            simp only [emitSeq] at hlen
            omega
          simp only [emitSeq]
          unfold parseEls
          rw [hv, List.cons_append, skipWs_cons _ _ hws]
          dsimp only
          rw [if_neg hbr, ← List.cons_append, ← hv,
            ih.1 v (']' :: rest) h1 (by rw [headNotDigit_cons]; decide)]
          dsimp only
          rw [skipWs_cons _ _ (by decide)]
          dsimp only
          rw [if_neg (by decide), if_pos rfl]
        | cons w ws =>
          have hlen' : (emitValue v).length + ((emitSeq (w :: ws)).length + 1) + 1 <
              f + 1 := by
            simp only [emitSeq, List.length_append, List.length_cons] at hlen ⊢
            omega
          have h1 : (emitValue v).length < f := by omega
          have h2 : (emitSeq (w :: ws)).length + 1 < f := by omega
          show parseEls (f + 1)
            ((emitValue v ++ ',' :: emitSeq (w :: ws)) ++ ']' :: rest) =
            some (v :: w :: ws, rest)
          rw [List.append_assoc, List.cons_append]
          unfold parseEls
          rw [hv, List.cons_append, skipWs_cons _ _ hws]
          dsimp only
          rw [if_neg hbr, ← List.cons_append, ← hv,
            ih.1 v (',' :: (emitSeq (w :: ws) ++ ']' :: rest)) h1 (by rw [headNotDigit_cons]; decide)]
          dsimp only
          rw [skipWs_cons _ _ (by decide)]
          dsimp only
          rw [if_pos rfl, ih.2.1 (w :: ws) rest h2]
    · intro ps rest hlen
      cases ps with
      | nil =>
        simp only [emitMap, List.nil_append]
        unfold parsePrs
        rw [skipWs_cons _ _ (by decide)]
        dsimp only
        rw [if_pos rfl]
      | cons kv ps =>
        obtain ⟨k, v⟩ := kv
        cases ps with
        | nil =>
          have h1 : (emitValue v).length < f := by
            simp only [emitMap, List.length_cons, List.length_append] at hlen
            omega
          simp only [emitMap]
          rw [List.cons_append]
          unfold parsePrs
          rw [skipWs_cons _ _ (by decide)]
          dsimp only
          rw [if_neg (by decide), if_pos rfl, List.append_assoc,
            List.cons_append, List.cons_append, parseStrBody_escape]
          dsimp only
          rw [skipWs_cons _ _ (by decide)]
          dsimp only
          rw [if_pos rfl, ih.1 v ('}' :: rest) h1 (by rw [headNotDigit_cons]; decide)]
          dsimp only
          rw [skipWs_cons _ _ (by decide)]
          dsimp only
          rw [if_neg (by decide), if_pos rfl]
        | cons q qs =>
          have hlen' : ((emitMap [(k, v)]).length + ((emitMap (q :: qs)).length + 1))
              + 1 < f + 1 := by
            simp only [emitMap, List.length_cons, List.length_append] at hlen ⊢
            omega
          have h1 : (emitValue v).length < f := by
            simp only [emitMap, List.length_cons, List.length_append] at hlen'
            omega
          have h2 : (emitMap (q :: qs)).length + 1 < f := by
            simp only [emitMap, List.length_cons, List.length_append] at hlen'
            omega
          show parsePrs (f + 1)
            ((('"' :: (escapeChars k.data ++ '"' :: ':' :: emitValue v)) ++
              ',' :: emitMap (q :: qs)) ++ '}' :: rest) = some ((k, v) :: q :: qs, rest)
          rw [List.append_assoc, List.cons_append, List.cons_append]
          unfold parsePrs
          rw [skipWs_cons _ _ (by decide)]
          dsimp only
          rw [if_neg (by decide), if_pos rfl, List.append_assoc,
            List.cons_append, List.cons_append, parseStrBody_escape]
          dsimp only
          rw [skipWs_cons _ _ (by decide)]
          dsimp only
          rw [if_pos rfl]
          rw [ih.1 v (',' :: (emitMap (q :: qs) ++ '}' :: rest)) h1
            (by rw [headNotDigit_cons]; decide)]
          dsimp only
          rw [skipWs_cons _ _ (by decide)]
          dsimp only
          rw [if_pos rfl, ih.2.2 (q :: qs) rest h2]

theorem isDocStart_cons_ne {c : Char} (t : List Char) (h : c ≠ '-') :
    isDocStart (c :: t) = false := by
  simp [isDocStart, List.take_succ_cons, h]

theorem isDocStart_cons2_ne {c c2 : Char} (t : List Char) (h : c2 ≠ '-') :
    isDocStart (c :: c2 :: t) = false := by
  simp [isDocStart, List.take_succ_cons, h]

theorem emit_notDocStart (v : Value) (X : List Char) :
    isDocStart (emitValue v ++ X) = false := by
  cases v with
  | null => exact isDocStart_cons_ne _ (by decide)
  | bool b => cases b <;> exact isDocStart_cons_ne _ (by decide)
  | int i =>
    show isDocStart (emitInt i ++ X) = false
    unfold emitInt
    by_cases h : i < 0
    · rw [if_pos h]
      cases hd : natToDigits i.natAbs with
      | nil => exact absurd hd (natToDigits_ne_nil _)
      | cons c2 t2 =>
        obtain ⟨d, hd10, hc⟩ := natToDigits_mem _ c2 (by rw [hd]; simp)
        subst hc
        rw [List.cons_append, List.cons_append]
        exact isDocStart_cons2_ne _ (digitChar_ne d hd10).2.2.2.2.2.2
    · rw [if_neg h]
      cases hd : natToDigits i.natAbs with
      | nil => exact absurd hd (natToDigits_ne_nil _)
      | cons c2 t2 =>
        obtain ⟨d, hd10, hc⟩ := natToDigits_mem _ c2 (by rw [hd]; simp)
        subst hc
        rw [List.cons_append]
        exact isDocStart_cons_ne _ (digitChar_ne d hd10).2.2.2.2.2.2
  | str s => exact isDocStart_cons_ne _ (by decide)
  | seq xs => exact isDocStart_cons_ne _ (by decide)
  | map ps => exact isDocStart_cons_ne _ (by decide)

theorem parseDocs_single (f : Nat) (v : Value) :
    parseDocs (f + 1) (emitValue v ++ ['\n']) = some [v] := by
  obtain ⟨c, t, hv, hws, _⟩ := emit_cons v
  unfold parseDocs
  rw [hv, List.cons_append, skipWs_cons _ _ hws]
  dsimp only
  rw [← List.cons_append, ← hv, emit_notDocStart]
  simp only [Bool.false_eq_true, if_false]
  rw [(parse_emit ((emitValue v ++ ['\n']).length + 1)).1 v ['\n']
    (by simp only [List.length_append, List.length_cons, List.length_nil]; omega)
    (by decide)]
  simp +decide [skipWs]

theorem parse_all_emit (v : Value) :
    parse_all ⟨emitValue v ++ ['\n']⟩ = some [v] := by
  show parseDocs ((emitValue v ++ ['\n']).length + 1) (emitValue v ++ ['\n']) = some [v]
  exact parseDocs_single _ v

/-! ## Error taxonomy (src/py-src/ryaml/error.py and the spec's §3, §7) -/

inductive ErrKind where
  | scanner
  | parser
  | composer
  | constructor
  | emitter
  | serializer
  | representer
  | reader
deriving DecidableEq

/-- The classes of exception a call can raise: Python usage errors
(`TypeError`, `AttributeError`), the strict-decoding `UnicodeDecodeError`,
and the format-error taxonomy rooted at `InvalidYamlError`. -/
inductive PyErr where
  | typeError (msg : String)
  | attributeError (attr : String)
  | unicodeDecodeError (encoding : String) (pos : Nat) (reason : String)
  | yamlError (kind : ErrKind) (msg : String)
deriving DecidableEq

def PyErr.isInvalidYamlError : PyErr → Bool
  | .yamlError _ _ => true
  | _ => false

def PyErr.isUsageError : PyErr → Bool
  | .typeError _ => true
  | .attributeError _ => true
  | _ => false

/-! ## Strict UTF-8 decoding (Python `bytes.decode("utf8")`) -/

def isCont (b : Nat) : Bool := 0x80 ≤ b && b < 0xC0

def utf8DecodeFrom : Nat → List Nat → Except (Nat × String) (List Char)
  | _, [] => .ok []
  | pos, b :: bs =>
    if b < 0x80 then
      match utf8DecodeFrom (pos + 1) bs with
      | .ok cs => .ok (Char.ofNat b :: cs)
      | .error e => .error e
    else if b < 0xC2 then .error (pos, "invalid start byte")
    else if b < 0xE0 then
      match bs with
      | [] => .error (pos, "unexpected end of data")
      | b1 :: bs1 =>
        if isCont b1 then
          match utf8DecodeFrom (pos + 2) bs1 with
          | .ok cs => .ok (Char.ofNat ((b - 0xC0) * 0x40 + (b1 - 0x80)) :: cs)
          | .error e => .error e
        else .error (pos, "invalid continuation byte")
    else if b < 0xF0 then
      match bs with
      | [] => .error (pos, "unexpected end of data")
      | b1 :: bs1 =>
        if isCont b1 && (b != 0xE0 || decide (0xA0 ≤ b1)) &&
            (b != 0xED || decide (b1 < 0xA0)) then
          match bs1 with
          | [] => .error (pos, "unexpected end of data")
          | b2 :: bs2 =>
            if isCont b2 then
              match utf8DecodeFrom (pos + 3) bs2 with
              | .ok cs =>
                .ok (Char.ofNat ((b - 0xE0) * 0x1000 + (b1 - 0x80) * 0x40 +
                  (b2 - 0x80)) :: cs)
              | .error e => .error e
            else .error (pos, "invalid continuation byte")
        else .error (pos, "invalid continuation byte")
    else if b < 0xF5 then
      match bs with
      | [] => .error (pos, "unexpected end of data")
      | b1 :: bs1 =>
        if isCont b1 && (b != 0xF0 || decide (0x90 ≤ b1)) &&
            (b != 0xF4 || decide (b1 < 0x90)) then
          match bs1 with
          | [] => .error (pos, "unexpected end of data")
          | b2 :: bs2 =>
            if isCont b2 then
              match bs2 with
              | [] => .error (pos, "unexpected end of data")
              | b3 :: bs3 =>
                if isCont b3 then
                  match utf8DecodeFrom (pos + 4) bs3 with
                  | .ok cs =>
                    .ok (Char.ofNat ((b - 0xF0) * 0x40000 + (b1 - 0x80) * 0x1000 +
                      (b2 - 0x80) * 0x40 + (b3 - 0x80)) :: cs)
                  | .error e => .error e
                else .error (pos, "invalid continuation byte")
            else .error (pos, "invalid continuation byte")
        else .error (pos, "invalid continuation byte")
    else .error (pos, "invalid start byte")

def utf8Decode (bs : List Nat) : Except (Nat × String) String :=
  match utf8DecodeFrom 0 bs with
  | .ok cs => .ok ⟨cs⟩
  | .error e => .error e

/-- Strict UTF-8 validity of a byte sequence: Python's `bytes.decode("utf8")`
accepts it. -/
def utf8Valid (bs : List Nat) : Bool :=
  match utf8Decode bs with
  | .ok _ => true
  | .error _ => false

/-! ## File objects and the public API (src/py-src/ryaml/__init__.py) -/

/-- What `fp.read()` returns: text for text-mode files, bytes for binary-mode
files, or a non-str non-bytes buffer (the `bytes(data)` branch of
`_read_file`). -/
inductive FileData where
  | text (s : String)
  | binary (bs : List Nat)
  | buffer (bs : List Nat)
deriving DecidableEq

/-- A Python object passed to `load`/`load_all`: whether it is an
`io.IOBase` instance, whether it has a `read` attribute, and what a
successful `read()` yields. -/
structure PyFile where
  isIOBase : Bool
  hasRead : Bool
  data : FileData
deriving DecidableEq

def fileRead (fp : PyFile) : Except PyErr FileData :=
  if fp.hasRead then .ok fp.data else .error (.attributeError "read")

/-- Modelled from the spec: the engine's single-document entry point
`loads` (native `_ryaml`, absent from src/): delegates to `parse_all`;
zero documents yield Python `None` (`Value.null`), more than one document
is a Composer-kind error (§4.2). -/
def loads (t : String) : Except PyErr Value :=
  match parse_all t with
  | none => .error (.yamlError .scanner "while scanning, found invalid input")
  | some [] => .ok .null
  | some [v] => .ok v
  | some (_ :: _ :: _) =>
    .error (.yamlError .composer "expected a single document in the stream")

/-- Modelled from the spec: the engine's multi-document entry point
`loads_all` (native `_ryaml`, absent from src/). §9 leaves the empty-input
result open between `None` and an empty sequence; `test_load_all_empty`
(src/tests/test_load_all.py) pins the repository's choice to `None`,
modelled as `Option.none`. -/
def loads_all (t : String) : Except PyErr (Option (List Value)) :=
  match parse_all t with
  | none => .error (.yamlError .scanner "while scanning, found invalid input")
  | some [] => .ok none
  | some ds => .ok (some ds)

/-- Modelled from the spec: the engine's `dumps` (native `_ryaml`, absent
from src/), emitting one document in the fixed flow-style rendering. -/
def dumps (v : Value) : String := ⟨emitValue v ++ ['\n']⟩

/-- Embedding of `_read_file` (src/py-src/ryaml/__init__.py): drain the
file, return text as-is, strictly UTF-8-decode bytes and buffers; a decode
failure surfaces as Python's `UnicodeDecodeError`. -/
def _read_file (fp : PyFile) : Except PyErr String :=
  match fileRead fp with
  | .error e => .error e
  | .ok (.text s) => .ok s
  | .ok (.binary bs) =>
    match utf8Decode bs with
    | .ok s => .ok s
    | .error (p, r) => .error (.unicodeDecodeError "utf-8" p r)
  | .ok (.buffer bs) =>
    match utf8Decode bs with
    | .ok s => .ok s
    | .error (p, r) => .error (.unicodeDecodeError "utf-8" p r)

/-- Embedding of `load` (src/py-src/ryaml/__init__.py). -/
def load (fp : PyFile) : Except PyErr Value :=
  if !fp.isIOBase then .error (.typeError "fp must be a file-like object")
  else
    match _read_file fp with
    | .error e => .error e
    | .ok t => loads t

/-- Embedding of `load_all` (src/py-src/ryaml/__init__.py). -/
def load_all (fp : PyFile) : Except PyErr (Option (List Value)) :=
  if !fp.isIOBase then .error (.typeError "fp must be a file-like object")
  else
    match _read_file fp with
    | .error e => .error e
    | .ok t => loads_all t

/-! ## Marked-error construction (src/py-src/ryaml/error.py) -/

structure Mark where
  name : Option String
  line : Nat
  column : Nat
  index : Nat
deriving DecidableEq

/-- The attribute state of a markable error after `_MarkedErrorMixin.__init__`
ran: the five stored fields plus the message passed to the exception base. -/
structure MarkedErrorState where
  context : Option String
  context_mark : Option Mark
  problem : Option String
  problem_mark : Option Mark
  note : Option String
  message : String
deriving DecidableEq

/-- Embedding of `_MarkedErrorMixin.__init__` (src/py-src/ryaml/error.py,
lines 28-44): a single positional string (a str `context` with no
`context_mark` and no `problem`) is shifted into `problem`; the exception
message is the newline join of the present parts. -/
def markedErrorInit (context : Option String) (context_mark : Option Mark)
    (problem : Option String) (problem_mark : Option Mark) (note : Option String) :
    MarkedErrorState :=
  let shifted :=
    match context, context_mark, problem with
    | some c, none, none => (none, some c)
    | _, _, _ => (context, problem)
  let parts := (match shifted.1 with | some c => [c] | none => []) ++
    (match shifted.2 with | some p => [p] | none => [])
  { context := shifted.1, context_mark := context_mark, problem := shifted.2,
    problem_mark := problem_mark, note := note,
    message := String.intercalate "\n" parts }

/-- Constructing a markable error kind from a `Simple` failure signal:
Rust raises `ScannerError("msg")` and so on with a single positional
string. -/
def markableFromSimple (msg : String) : MarkedErrorState :=
  markedErrorInit (some msg) none none none none

/-! ## Class hierarchy of error.py in both configurations -/

inductive PyClass where
  | exceptionBase
  | invalidYamlError
  | markedErrorMixin
  | pyYamlBase
  | pyMarkedYamlBase
  | pyKind (k : ErrKind)
  | ryamlKind (k : ErrKind)
deriving DecidableEq

def isMarkableKind : ErrKind → Bool
  | .scanner | .parser | .composer | .constructor => true
  | _ => false

/-- Direct base classes, read off the class statements of error.py:
when pyyaml is importable (`hasYaml`) each ryaml kind additionally lists
the corresponding pyyaml class as a base; pyyaml's own hierarchy is
`ScannerError < MarkedYAMLError < YAMLError < Exception` (markable kinds)
and `EmitterError/…/ReaderError < YAMLError`. -/
def directBases (hasYaml : Bool) : PyClass → List PyClass
  | .exceptionBase => []
  | .invalidYamlError => [.exceptionBase]
  | .markedErrorMixin => []
  | .pyYamlBase => [.exceptionBase]
  | .pyMarkedYamlBase => [.pyYamlBase]
  | .pyKind k => if isMarkableKind k then [.pyMarkedYamlBase] else [.pyYamlBase]
  | .ryamlKind k =>
    if hasYaml then
      if isMarkableKind k then [.markedErrorMixin, .invalidYamlError, .pyKind k]
      else [.invalidYamlError, .pyKind k]
    else
      if isMarkableKind k then [.markedErrorMixin, .invalidYamlError]
      else [.invalidYamlError]

def isSubclassAux (hasYaml : Bool) : Nat → PyClass → PyClass → Bool
  | 0, _, _ => false
  | f + 1, a, b =>
    a == b || (directBases hasYaml a).any fun p => isSubclassAux hasYaml f p b

/-- Reflexive-transitive subclass relation generated by `directBases`
(the hierarchy has depth at most four, so fuel 8 is exact). -/
def isSubclass (hasYaml : Bool) (a b : PyClass) : Bool :=
  isSubclassAux hasYaml 8 a b

/-! ## pyyaml bridge loader (src/py-src/ryaml/compat) -/

/-- What `stream.read()` does when the attribute chain is followed:
returns text, returns bytes, or raises `AttributeError` from inside. -/
inductive ReadBehavior where
  | returnsText (s : String)
  | returnsBytes (bs : List Nat)
  | raisesAttributeError
deriving DecidableEq

/-- A source handed to the bridge loader: text, bytes, something with a
`read` attribute, or an unrelated object. -/
inductive Source where
  | text (s : String)
  | binary (bs : List Nat)
  | stream (r : ReadBehavior)
  | other
deriving DecidableEq

/-- The `data` local of the loader constructors before the bytes check. -/
inductive RawData where
  | text (s : String)
  | binary (bs : List Nat)
  | obj (src : Source)
deriving DecidableEq

/-- What construction passes on to the native loader: normalized text, or
the original object when the fallback kept a non-text non-bytes value. -/
inductive LoaderData where
  | text (s : String)
  | raw (src : Source)
deriving DecidableEq

/-- The `try: data = stream.read() / except AttributeError: data = stream`
step of `RSafeLoader.__new__` (src/py-src/ryaml/compat/__init__.py):
sources without a `read` attribute, and streams whose `read` itself raises
`AttributeError`, fall back to using the source object as the data. -/
def tryReadFallback : Source → RawData
  | .stream (.returnsText s) => .text s
  | .stream (.returnsBytes bs) => .binary bs
  | .stream .raisesAttributeError => .obj (.stream .raisesAttributeError)
  | .text s => .text s
  | .binary bs => .binary bs
  | .other => .obj .other

def decodeToLoaderData (bs : List Nat) : Except PyErr LoaderData :=
  match utf8Decode bs with
  | .ok s => .ok (.text s)
  | .error (p, r) => .error (.unicodeDecodeError "utf-8" p r)

/-- Embedding of `RSafeLoader.__new__` (src/py-src/ryaml/compat/__init__.py),
the loader the package exports: exception-driven read fallback, then UTF-8
decoding of bytes. -/
def RSafeLoader_new (stream : Source) : Except PyErr LoaderData :=
  match tryReadFallback stream with
  | .text s => .ok (.text s)
  | .binary bs => decodeToLoaderData bs
  | .obj src => .ok (.raw src)

/-- Embedding of `RSafeLoader.__init__` (src/py-src/ryaml/compat/pyyaml.py,
a module shadowed by the package `__init__`): capability probing with
`hasattr(stream, "read")`, so a raising `read` propagates its error. -/
def RSafeLoader_init (stream : Source) : Except PyErr LoaderData :=
  match stream with
  | .stream (.returnsText s) => .ok (.text s)
  | .stream (.returnsBytes bs) => decodeToLoaderData bs
  | .stream .raisesAttributeError => .error (.attributeError "read")
  | .text s => .ok (.text s)
  | .binary bs => decodeToLoaderData bs
  | .other => .ok (.raw .other)

/-- Modelled from the spec: §4.1 Input Normalizer `normalize(source) -> text`
(the generic normalizer over strings, byte sequences and readable streams is
not in src/; `_read_file` covers only file objects). Per §4.1, undecodable
bytes map to a Reader-kind error and unsupported sources to a usage error;
a stream's `read` failure propagates. -/
def normalize : Source → Except PyErr String
  | .text s => .ok s
  | .binary bs =>
    match utf8Decode bs with
    | .ok s => .ok s
    | .error (p, r) =>
      .error (.yamlError .reader ("position " ++ toString p ++ ": " ++ r))
  | .stream (.returnsText s) => .ok s
  | .stream (.returnsBytes bs) =>
    match utf8Decode bs with
    | .ok s => .ok s
    | .error (p, r) =>
      .error (.yamlError .reader ("position " ++ toString p ++ ": " ++ r))
  | .stream .raisesAttributeError => .error (.attributeError "read")
  | .other => .error (.typeError "unsupported source type")

instance {e a : Type} [DecidableEq e] [DecidableEq a] : DecidableEq (Except e a) :=
  fun x y =>
    match x, y with
    | .ok u, .ok v => decidable_of_iff (u = v) (by simp)
    | .error u, .error v => decidable_of_iff (u = v) (by simp)
    | .ok _, .error _ => isFalse (by simp)
    | .error _, .ok _ => isFalse (by simp)

/-! ## Claim theorems -/

/-- C2: for every text input `t` on which `loads` succeeds, parsing `t`,
dumping the resulting value, and parsing the dumped text again yields a
value structurally equal to the first parse. -/
theorem c2_roundtrip (t : String) (v : Value) (h : loads t = .ok v) :
    loads (dumps v) = .ok v := by
  have hp : parse_all (dumps v) = some [v] := parse_all_emit v
  simp [loads, hp]

theorem c2_roundtrip_witness :
    loads "[1,\"a\"]" = .ok (.seq [.int 1, .str "a"]) ∧
    loads (dumps (.seq [.int 1, .str "a"])) = .ok (.seq [.int 1, .str "a"]) :=
  ⟨by decide, c2_roundtrip "[1,\"a\"]" _ (by decide)⟩

/-- C3 as stated is false at the concrete input `""`: the multi-document
entry point returns Python `None`, not an empty stream of documents. -/
theorem c3_counterexample :
    loads_all "" = .ok none ∧ loads_all "" ≠ .ok (some []) := by
  decide

/-- C3 amended: loading the empty string (or an empty file) as a single
document returns `None` rather than raising; the multi-document entry
points on empty input also return `None` (not an empty stream). -/
theorem c3_empty_amended :
    loads "" = .ok .null ∧ loads_all "" = .ok none ∧
    load ⟨true, true, .text ""⟩ = .ok .null ∧
    load_all ⟨true, true, .text ""⟩ = .ok none := by
  decide

/-- C4 as stated is false at the concrete byte input `[0xFF]`: loading it
fails with Python's `UnicodeDecodeError` (offending position 0), which is
not a member of the `InvalidYamlError` taxonomy, hence not a Reader-kind
error. -/
theorem c4_counterexample :
    load ⟨true, true, .binary [0xFF]⟩ =
      .error (.unicodeDecodeError "utf-8" 0 "invalid start byte") ∧
    (PyErr.unicodeDecodeError "utf-8" 0 "invalid start byte").isInvalidYamlError
      = false := by
  decide

/-- C4 amended: for every byte input that is not valid UTF-8, `load` and
`load_all` fail with Python's strict-decoding `UnicodeDecodeError` carrying
the offending byte position — an error outside the format taxonomy — and
not with a Reader-kind `InvalidYamlError`. -/
theorem c4_amended (bs : List Nat) (h : utf8Valid bs = false) :
    ∃ p r,
      load ⟨true, true, .binary bs⟩ = .error (.unicodeDecodeError "utf-8" p r) ∧
      load_all ⟨true, true, .binary bs⟩ =
        .error (.unicodeDecodeError "utf-8" p r) ∧
      (PyErr.unicodeDecodeError "utf-8" p r).isInvalidYamlError = false := by
  unfold utf8Valid at h
  cases hd : utf8Decode bs with
  | ok s => rw [hd] at h; simp at h
  | error e =>
    obtain ⟨p, r⟩ := e
    exact ⟨p, r, by simp [load, _read_file, fileRead, hd],
      by simp [load_all, _read_file, fileRead, hd], rfl⟩

theorem c4_amended_witness :
    utf8Valid [0xC3, 0x28] = false ∧
    ∃ p r,
      load ⟨true, true, .binary [0xC3, 0x28]⟩ =
        .error (.unicodeDecodeError "utf-8" p r) ∧
      load_all ⟨true, true, .binary [0xC3, 0x28]⟩ =
        .error (.unicodeDecodeError "utf-8" p r) ∧
      (PyErr.unicodeDecodeError "utf-8" p r).isInvalidYamlError = false :=
  ⟨by decide, c4_amended [0xC3, 0x28] (by decide)⟩

/-- C5: any input whose document stream holds two or more documents makes
the single-document entry point fail with a Composer-kind error, while the
multi-document entry point succeeds and returns all documents in input
order. -/
theorem c5_multidoc (t : String) (ds : List Value) (h : parse_all t = some ds)
    (h2 : 2 ≤ ds.length) :
    loads t =
      .error (.yamlError .composer "expected a single document in the stream") ∧
    loads_all t = .ok (some ds) := by
  cases ds with
  | nil => simp at h2
  | cons d1 ds' =>
    cases ds' with
    | nil => simp at h2
    | cons d2 ds'' => exact ⟨by simp [loads, h], by simp [loads_all, h]⟩

theorem c5_multidoc_witness :
    parse_all "---\nnull\n---\ntrue\n" = some [.null, .bool true] ∧
    2 ≤ [Value.null, Value.bool true].length ∧
    loads "---\nnull\n---\ntrue\n" =
      .error (.yamlError .composer "expected a single document in the stream") ∧
    loads_all "---\nnull\n---\ntrue\n" = .ok (some [.null, .bool true]) :=
  ⟨by decide, by decide,
    (c5_multidoc "---\nnull\n---\ntrue\n" [.null, .bool true] (by decide)
      (by decide)).1,
    (c5_multidoc "---\nnull\n---\ntrue\n" [.null, .bool true] (by decide)
      (by decide)).2⟩

/-- C6: constructing a markable error kind from a Simple failure signal (a
single plain message string) stores the message in `problem` and leaves
`context`, `context_mark` and `problem_mark` all `None`. -/
theorem c6_simple_signal (msg : String) :
    (markableFromSimple msg).problem = some msg ∧
    (markableFromSimple msg).context = none ∧
    (markableFromSimple msg).context_mark = none ∧
    (markableFromSimple msg).problem_mark = none :=
  ⟨rfl, rfl, rfl, rfl⟩

/-- C7: the string representation of every constructed markable error is
the newline-joined concatenation of its `context` and `problem` fields when
both are present, just the present one when only one is, and the empty
string when neither is. -/
theorem c7_message (context : Option String) (context_mark : Option Mark)
    (problem : Option String) (problem_mark : Option Mark) (note : Option String) :
    (markedErrorInit context context_mark problem problem_mark note).message =
      (match (markedErrorInit context context_mark problem problem_mark note).context,
        (markedErrorInit context context_mark problem problem_mark note).problem with
      | some c, some p => c ++ "\n" ++ p
      | some c, none => c
      | none, some p => p
      | none, none => "") := by
  cases context <;> cases context_mark <;> cases problem <;>
    simp [markedErrorInit, String.intercalate, String.intercalate.go]

/-- C8: every error kind is a subtype of the common base `InvalidYamlError`
in both configurations, and when pyyaml is present each kind is additionally
a subtype of pyyaml's corresponding error type. -/
theorem c8_hierarchy (k : ErrKind) :
    isSubclass false (.ryamlKind k) .invalidYamlError = true ∧
    isSubclass true (.ryamlKind k) .invalidYamlError = true ∧
    isSubclass true (.ryamlKind k) (.pyKind k) = true := by
  cases k <;> decide

/-- C9: a source lacking read capability makes `load` and `load_all` fail
with a usage error (TypeError when it is not a file object, AttributeError
from the read attempt otherwise), never with a member of the format-error
taxonomy. -/
theorem c9_usage_error (fp : PyFile) (h : fp.hasRead = false) :
    ∃ e, load fp = .error e ∧ load_all fp = .error e ∧
      e.isUsageError = true ∧ e.isInvalidYamlError = false := by
  by_cases hio : fp.isIOBase = true
  · exact ⟨.attributeError "read", by simp [load, hio, _read_file, fileRead, h],
      by simp [load_all, hio, _read_file, fileRead, h], rfl, rfl⟩
  · have hio' : fp.isIOBase = false := by
      cases hb : fp.isIOBase
      · rfl
      · exact absurd hb hio
    exact ⟨.typeError "fp must be a file-like object", by simp [load, hio'],
      by simp [load_all, hio'], rfl, rfl⟩

theorem c9_usage_error_witness :
    (PyFile.mk false false (.text "")).hasRead = false ∧
    ∃ e, load ⟨false, false, .text ""⟩ = .error e ∧
      load_all ⟨false, false, .text ""⟩ = .error e ∧
      e.isUsageError = true ∧ e.isInvalidYamlError = false :=
  ⟨rfl, c9_usage_error ⟨false, false, .text ""⟩ rfl⟩

/-- C10 as stated is false at the concrete source "stream whose `read`
raises AttributeError": the exported bridge loader decides stream-ness by
attempting the read and falling back on the exception, so it treats this
source as raw data, while capability probing (compat/pyyaml.py) and the
Input Normalizer propagate the failure — the construction result differs
from the normalizer's. -/
theorem c10_counterexample :
    RSafeLoader_new (.stream .raisesAttributeError) =
      .ok (.raw (.stream .raisesAttributeError)) ∧
    RSafeLoader_init (.stream .raisesAttributeError) =
      .error (.attributeError "read") ∧
    normalize (.stream .raisesAttributeError) =
      .error (.attributeError "read") ∧
    RSafeLoader_new (.stream .raisesAttributeError) ≠
      (normalize (.stream .raisesAttributeError)).map LoaderData.text := by
  decide

/-- C10 amended: the exported bridge loader resolves sources by attempting
`stream.read()` and catching AttributeError (exception-driven fallback, not
capability probing); nevertheless, for every source the Input Normalizer
resolves to text — strings, valid-UTF-8 byte sequences, and streams whose
full drain returns such — construction yields exactly that normalized text. -/
theorem c10_amended (s : Source) (t : String) (h : normalize s = .ok t) :
    RSafeLoader_new s = .ok (.text t) := by
  cases s with
  | text s0 =>
    simp [normalize] at h
    subst h
    rfl
  | binary bs =>
    cases hd : utf8Decode bs with
    | ok s0 =>
      simp [normalize, hd] at h
      subst h
      simp [RSafeLoader_new, tryReadFallback, decodeToLoaderData, hd]
    | error e =>
      obtain ⟨p, r⟩ := e
      simp [normalize, hd] at h
  | stream r =>
    cases r with
    | returnsText s0 =>
      simp [normalize] at h
      subst h
      rfl
    | returnsBytes bs =>
      cases hd : utf8Decode bs with
      | ok s0 =>
        simp [normalize, hd] at h
        subst h
        simp [RSafeLoader_new, tryReadFallback, decodeToLoaderData, hd]
      | error e =>
        obtain ⟨p, r⟩ := e
        simp [normalize, hd] at h
    | raisesAttributeError => simp [normalize] at h
  | other => simp [normalize] at h

theorem c10_amended_witness :
    normalize (.text "a") = .ok "a" ∧
    RSafeLoader_new (.text "a") = .ok (.text "a") :=
  ⟨rfl, c10_amended (.text "a") "a" rfl⟩

end Ryaml
